import Mathlib

set_option linter.all false

/-!
Shallow embedding of the deployment-metadata and sharded-store core of the
graph-node postgres store (files `store/postgres/src/deployment.rs` and
`store/postgres/src/sharded_store.rs`), together with proofs about the
behaviour of the embedded operations.

Database rows are modelled as Lean structures; SQL `update` statements become
pure functions on the row of the targeted deployment; fallible Rust code
returns `Except StoreError`; code that can `panic!`, `expect` or hit
`unreachable!` returns `RRes`, which has an explicit panic outcome.
Numeric SQL columns (`Integer`, `Numeric`) are modelled as `Int`.
-/

namespace GraphNode

/-- The variants of `StoreError` that the embedded functions construct. -/
inductive StoreError where
  | unknown (msg : String)
  | constraintViolation (msg : String)
  | queryExecutionError (msg : String)
  | unknownShard (shard : String)
  deriving DecidableEq, Repr

/-- Outcome of a Rust computation that may return a value, return an error,
or panic (`expect`, `unreachable!`, `assert!`). -/
inductive RRes (α : Type) where
  | ok (a : α)
  | err (e : StoreError)
  | panicked (msg : String)
  deriving DecidableEq, Repr

/-- `EthereumBlockPointer`: a (hash, number) pair; the hash is a 32-byte
value, modelled as a list of bytes, and the number is a `u64`. -/
structure EthereumBlockPointer where
  hash : List Nat
  number : Nat
  deriving DecidableEq, Repr

inductive EntityChangeOperation where
  | set
  | removed
  deriving DecidableEq, Repr

/-- An `EntityChange` as produced by the store operations. -/
structure EntityChange where
  entity_type : String
  entity_id : String
  subgraph_id : String
  operation : EntityChangeOperation
  deriving DecidableEq, Repr

structure StoreEvent where
  changes : List EntityChange
  deriving DecidableEq, Repr

def StoreEvent.new (changes : List EntityChange) : StoreEvent := ⟨changes⟩

/-- `SUBGRAPHS_ID`, the id of the metadata subgraph. -/
def SUBGRAPHS_ID : String := "subgraphs"

/-- `SubgraphDeploymentId::is_meta`. -/
def is_meta (id : String) : Bool := id = SUBGRAPHS_ID

/-- One row of the `subgraphs.subgraph_deployment` table, restricted to the
columns the embedded operations read or write.  `Integer` columns are `Int`,
`Numeric` columns are `Option Int` / `Int`. -/
structure DeploymentRow where
  id : String
  failed : Bool
  synced : Bool
  latest_ethereum_block_hash : Option (List Nat)
  latest_ethereum_block_number : Option Int
  graft_base : Option String
  graft_block_hash : Option (List Nat)
  graft_block_number : Option Int
  reorg_count : Int
  current_reorg_depth : Int
  max_reorg_depth : Int
  deriving DecidableEq, Repr

/-- `block_ptr_store_event`: the `Set` change on the `SubgraphDeployment`
entity that both block-pointer updates return. -/
def block_ptr_store_event (id : String) : StoreEvent :=
  StoreEvent.new [⟨("SubgraphDeployment"), id, SUBGRAPHS_ID, EntityChangeOperation.set⟩]

/-- `forward_block_ptr`: the SQL update on the row of deployment `d.id`.
Sets the latest block pointer and resets `current_reorg_depth` to 0. -/
def forward_block_ptr (ptr : EthereumBlockPointer) (d : DeploymentRow) :
    DeploymentRow × StoreEvent :=
  ({ d with
      latest_ethereum_block_number := some (ptr.number : Int)
      latest_ethereum_block_hash := some ptr.hash
      current_reorg_depth := 0 },
   block_ptr_store_event d.id)

/-- `revert_block_ptr`: the SQL update on the row of deployment `d.id`.
Sets the latest block pointer, increments `reorg_count` and
`current_reorg_depth`, and sets
`max_reorg_depth = greatest(current_reorg_depth + 1, max_reorg_depth)`;
every right-hand side reads the old row, as in SQL. -/
def revert_block_ptr (ptr : EthereumBlockPointer) (d : DeploymentRow) :
    DeploymentRow × StoreEvent :=
  ({ d with
      latest_ethereum_block_number := some (ptr.number : Int)
      latest_ethereum_block_hash := some ptr.hash
      reorg_count := d.reorg_count + 1
      current_reorg_depth := d.current_reorg_depth + 1
      max_reorg_depth := max (d.current_reorg_depth + 1) d.max_reorg_depth },
   block_ptr_store_event d.id)

/-- A call to one of the two block-pointer operations. -/
inductive PtrOp where
  | advance (ptr : EthereumBlockPointer)
  | revert (ptr : EthereumBlockPointer)
  deriving DecidableEq, Repr

def applyPtrOp (d : DeploymentRow) (op : PtrOp) : DeploymentRow :=
  match op with
  | PtrOp.advance ptr => (forward_block_ptr ptr d).1
  | PtrOp.revert ptr => (revert_block_ptr ptr d).1

/-- Run a sequence of `forward_block_ptr` / `revert_block_ptr` calls. -/
def runPtrOps (d : DeploymentRow) (ops : List PtrOp) : DeploymentRow :=
  ops.foldl applyPtrOp d

def isRevert : PtrOp → Bool
  | PtrOp.advance _ => false
  | PtrOp.revert _ => true

/-- Spec-side count: the total number of revert calls in the sequence. -/
def totalReverts (ops : List PtrOp) : Nat := ops.countP isRevert

/-- Spec-side count: the number of trailing revert calls since the most
recent advance (or since the start if no advance occurred). -/
def trailingReverts (ops : List PtrOp) : Nat :=
  (ops.reverse.takeWhile isRevert).length

/-- Spec-side count: the maximum value `trailingReverts` reaches on any
prefix of the sequence, i.e. the high-water mark of the reorg depth. -/
def maxDepthReached (ops : List PtrOp) : Nat :=
  (ops.inits.map trailingReverts).foldr max 0

/-- A concrete deployment row in freshly created state, used as test input. -/
def freshTestRow : DeploymentRow :=
  { id := "Qmdeployment"
    failed := false
    synced := false
    latest_ethereum_block_hash := none
    latest_ethereum_block_number := none
    graft_base := none
    graft_block_hash := none
    graft_block_number := none
    reorg_count := 0
    current_reorg_depth := 0
    max_reorg_depth := 0 }

/-- A concrete call sequence: advance, revert, revert, advance, revert. -/
def testPtrOps : List PtrOp :=
  [PtrOp.advance ⟨[], 5⟩, PtrOp.revert ⟨[], 4⟩, PtrOp.revert ⟨[], 3⟩,
   PtrOp.advance ⟨[], 6⟩, PtrOp.revert ⟨[], 5⟩]

def RRes.bind {α β : Type} (r : RRes α) (f : α → RRes β) : RRes β :=
  match r with
  | RRes.ok a => f a
  | RRes.err e => RRes.err e
  | RRes.panicked m => RRes.panicked m

/-- Modelled from the spec: `SubgraphDeploymentId::new` lives in the graph
core crate, outside the embedded sources; the spec only requires a
distinction between well-formed and malformed deployment ids, so a
well-formed id is modelled as a nonempty alphanumeric string. -/
def isValidDeploymentId (s : String) : Bool :=
  !s.data.isEmpty && s.data.all (fun c => c.isAlphanum)

/-- `H256::from_slice` panics unless the slice has exactly 32 bytes. -/
def H256_from_slice (b : List Nat) : RRes (List Nat) :=
  if b.length = 32 then RRes.ok b
  else RRes.panicked ("H256 from_slice requires a 32 byte slice")

/-- `BigDecimal::to_u64` on the `Int` model of `Numeric`: defined exactly
when the value is in the `u64` range. -/
def bigdecimal_to_u64 (n : Int) : Option Nat :=
  if 0 ≤ n ∧ n < 2 ^ 64 then some n.toNat else none

def invalid_base_id_msg (s : String) : String :=
  "the base subgraph for a graft must be a valid subgraph id but is `" ++ s ++ "`"

def graft_unreachable_msg : String :=
  "graftBlockHash and graftBlockNumber are either both set or neither is set"

/-- `graft`: resolve the graft columns of the row for deployment `id`
(`row = none` when no such row exists).  The `pending_only` variant adds the
SQL filter `graft_block_number >= coalesce(latest_ethereum_block_number, 0)`;
a row whose `graft_block_number` is NULL never satisfies that filter.  A
filtered-out or missing row behaves like the all-NULL triple.  A fully set
triple goes through `H256::from_slice` (panics on a wrong-length hash),
`to_u64().expect(..)` (panics outside `u64`), and base-id validation (an
error on a malformed id); a partially set triple hits `unreachable!`. -/
def graft (row : Option DeploymentRow) (id : String) (pending_only : Bool) :
    RRes (Option (String × EthereumBlockPointer)) :=
  if is_meta id then RRes.ok none
  else
    let triple : Option String × Option (List Nat) × Option Int :=
      match row with
      | none => (none, none, none)
      | some r =>
        if pending_only then
          match r.graft_block_number with
          | some n =>
            if r.latest_ethereum_block_number.getD 0 ≤ n then
              (r.graft_base, r.graft_block_hash, r.graft_block_number)
            else (none, none, none)
          | none => (none, none, none)
        else (r.graft_base, r.graft_block_hash, r.graft_block_number)
    match triple with
    | (none, none, none) => RRes.ok none
    | (some subgraph, some hash, some block) =>
      RRes.bind (H256_from_slice hash) (fun hash =>
        match bigdecimal_to_u64 block with
        | none => RRes.panicked ("block numbers fit into a u64")
        | some block =>
          if isValidDeploymentId subgraph then
            RRes.ok (some (subgraph, ⟨hash, block⟩))
          else RRes.err (StoreError.unknown (invalid_base_id_msg subgraph)))
    | _ => RRes.panicked graft_unreachable_msg

/-- `graft_pending`: `graft` with `pending_only = true`. -/
def graft_pending (row : Option DeploymentRow) (id : String) :
    RRes (Option (String × EthereumBlockPointer)) :=
  graft row id true

/-- `graft_point`: `graft` with `pending_only = false`. -/
def graft_point (row : Option DeploymentRow) (id : String) :
    RRes (Option (String × EthereumBlockPointer)) :=
  graft row id false

def missing_field_msg (field subgraph : String) : String :=
  "missing " ++ field ++ " for subgraph `" ++ subgraph ++ "`"

def invalid_value_msg (number : Int) (field subgraph : String) : String :=
  "invalid value " ++ toString number ++ " for " ++ field ++ " in subgraph " ++ subgraph

/-- `convert_to_u32`: `None` is a missing required value; a negative `i32`
fails `u32::try_from`.  Both produce a `ConstraintViolation`, never a
panic, and an accepted value is returned unchanged. -/
def convert_to_u32 (number : Option Int) (field subgraph : String) :
    Except StoreError Int :=
  match number with
  | none => Except.error (StoreError.constraintViolation (missing_field_msg field subgraph))
  | some n =>
    if 0 ≤ n then Except.ok n
    else Except.error (StoreError.constraintViolation (invalid_value_msg n field subgraph))

def not_started_msg (subgraph : String) : String :=
  "Subgraph `" ++ subgraph ++
    "` has not started syncing yet. Wait for it to ingest a few blocks before querying it"

def invalid_latest_msg (latest : Int) (subgraph : String) : String :=
  "Subgraph `" ++ subgraph ++ "` has an invalid latest_ethereum_block_number `" ++
    toString latest ++ "` that can not be represented as an i32"

def no_data_msg (id : String) : String :=
  "No data found for subgraph " ++ id

/-- `latest_as_block_number`: `None` means the deployment has not started
syncing (a `QueryExecutionError`); a value outside the `i32` range is a
`ConstraintViolation` (`BigDecimal::to_i32` fails). -/
def latest_as_block_number (latest : Option Int) (subgraph : String) :
    Except StoreError Int :=
  match latest with
  | none => Except.error (StoreError.queryExecutionError (not_started_msg subgraph))
  | some l =>
    if -(2 ^ 31) ≤ l ∧ l < 2 ^ 31 then Except.ok l
    else Except.error (StoreError.constraintViolation (invalid_latest_msg l subgraph))

structure DeploymentState where
  id : String
  reorg_count : Int
  max_reorg_depth : Int
  latest_ethereum_block_number : Int
  deriving DecidableEq, Repr

/-- `state`: project `(reorg_count, max_reorg_depth, latest block number)`
from the row for deployment `id` (`row = none` when no row exists). -/
def state (row : Option DeploymentRow) (id : String) :
    Except StoreError DeploymentState :=
  match row with
  | none => Except.error (StoreError.queryExecutionError (no_data_msg id))
  | some r => do
    let rc ← convert_to_u32 (some r.reorg_count) ("reorg_count") id
    let mrd ← convert_to_u32 (some r.max_reorg_depth) ("max_reorg_depth") id
    let latest ← latest_as_block_number r.latest_ethereum_block_number id
    Except.ok ⟨id, rc, mrd, latest⟩

/-- `set_synced`: the SQL update with filters `id = ..` and `synced = false`;
it flips `synced` on a matching row, leaves a non-matching row untouched, and
returns `Ok(())` either way.  The table is modelled by the row for `id`. -/
def set_synced (row : Option DeploymentRow) :
    Option DeploymentRow × Except StoreError Unit :=
  match row with
  | some r =>
    if r.synced = false then (some { r with synced := true }, Except.ok ())
    else (some r, Except.ok ())
  | none => (none, Except.ok ())

/-- `exists_and_synced`: `first(..).optional()?.unwrap_or(false)` — a missing
row yields `Ok(false)`, not an error. -/
def exists_and_synced (row : Option DeploymentRow) : Except StoreError Bool :=
  Except.ok ((row.map (fun r => r.synced)).getD false)

/-- Row whose latest block equals its graft block number (test input). -/
def graftEqualRow : DeploymentRow :=
  { freshTestRow with
      latest_ethereum_block_number := some 5
      graft_base := some "Qmbase"
      graft_block_hash := some (List.replicate 32 7)
      graft_block_number := some 5 }

/-- Row that has advanced strictly past its graft block (test input). -/
def graftPastRow : DeploymentRow :=
  { graftEqualRow with latest_ethereum_block_number := some 7 }

/-- Row with only `graft_base` set out of the three graft columns. -/
def halfGraftRow : DeploymentRow :=
  { freshTestRow with graft_base := some "Qmbase" }

/-- Row with a full graft triple whose base id is malformed. -/
def badBaseRow : DeploymentRow :=
  { freshTestRow with
      graft_base := some "Qm/base"
      graft_block_hash := some (List.replicate 32 7)
      graft_block_number := some 5 }

/-- The closed enum `MetadataType` of metadata entity types. -/
inductive MetadataType where
  | Subgraph
  | SubgraphDeploymentAssignment
  | SubgraphDeployment
  | SubgraphManifest
  | EthereumContractDataSource
  | DynamicEthereumContractDataSource
  | EthereumContractSource
  | EthereumContractMapping
  | EthereumContractAbi
  | EthereumBlockHandlerEntity
  | EthereumBlockHandlerFilterEntity
  | EthereumCallHandlerEntity
  | EthereumContractEventHandler
  | EthereumContractDataSourceTemplate
  | EthereumContractDataSourceTemplateSource
  | SubgraphError
  deriving DecidableEq, Repr

/-- `impl ShardData for MetadataType`: whether the type resides in the shard
holding the given deployment's data.  The deployment id argument is ignored
by the source (`fn in_shard(&self, _: &SubgraphDeploymentId)`). -/
def MetadataType.in_shard (t : MetadataType) (_ : String) : Bool :=
  match t with
  | MetadataType.Subgraph | MetadataType.SubgraphDeploymentAssignment => false
  | MetadataType.SubgraphDeployment
  | MetadataType.SubgraphManifest
  | MetadataType.EthereumContractDataSource
  | MetadataType.DynamicEthereumContractDataSource
  | MetadataType.EthereumContractSource
  | MetadataType.EthereumContractMapping
  | MetadataType.EthereumContractAbi
  | MetadataType.EthereumBlockHandlerEntity
  | MetadataType.EthereumBlockHandlerFilterEntity
  | MetadataType.EthereumCallHandlerEntity
  | MetadataType.EthereumContractEventHandler
  | MetadataType.EthereumContractDataSourceTemplate
  | MetadataType.EthereumContractDataSourceTemplateSource
  | MetadataType.SubgraphError => true

/-- `MetadataOperation`: a tagged metadata write; `entity` is the
`MetadataType` and `id` the entity id (the `data`/`guard` payloads are
irrelevant to shard routing and omitted). -/
inductive MetadataOperation where
  | set (entity : MetadataType) (id : String)
  | remove (entity : MetadataType) (id : String)
  | update (entity : MetadataType) (id : String)
  deriving DecidableEq, Repr

def MetadataOperation.entity : MetadataOperation → MetadataType
  | MetadataOperation.set e _ => e
  | MetadataOperation.remove e _ => e
  | MetadataOperation.update e _ => e

/-- `impl ShardData for MetadataOperation`: delegates to the entity type;
the operation's own entity id plays no role. -/
def MetadataOperation.in_shard (op : MetadataOperation) (id : String) : Bool :=
  op.entity.in_shard id

/-- `impl ShardData for Vec<T>`: every element must be in the shard. -/
def list_in_shard (ops : List MetadataOperation) (id : String) : Bool :=
  ops.all (fun op => op.in_shard id)

/-- The assertion at the top of `apply_metadata_operations`:
`operations.in_shard(target_deployment)`; the batch is rejected (the
assertion fires) when this is false. -/
def apply_metadata_operations_assertion (target : String)
    (ops : List MetadataOperation) : Bool :=
  list_in_shard ops target

/-- Batch with one primary-only operation and one co-located operation keyed
to the target deployment `Qmtarget`. -/
def mixedBatch : List MetadataOperation :=
  [MetadataOperation.set MetadataType.Subgraph ("name1"),
   MetadataOperation.set MetadataType.SubgraphDeployment ("Qmtarget")]

/-- Batch with a single co-located operation keyed to a foreign deployment. -/
def foreignBatch : List MetadataOperation :=
  [MetadataOperation.set MetadataType.SubgraphDeployment ("Qmother")]

/-- One step of an operation against the stores: transaction brackets,
writes and notification sends, each on a named shard. -/
inductive Action where
  | txBegin (shard : String)
  | txCommit (shard : String)
  | write (shard : String) (changes : List EntityChange)
  | notify (shard : String) (event : StoreEvent)
  deriving DecidableEq, Repr

def Action.shard : Action → String
  | Action.txBegin s => s
  | Action.txCommit s => s
  | Action.write s _ => s
  | Action.notify s _ => s

/-- `conn.transaction(..)`: the body runs between begin and commit.  Only
the successful path is traced; on an error the operation aborts before any
later step, so no notification is reached. -/
def transaction (shard : String) (body : List Action) : List Action :=
  Action.txBegin shard :: body ++ [Action.txCommit shard]

def PRIMARY_SHARD : String := "primary"

/-- `send_store_event_with_conn`: serialize the event and send it through
the given connection (the debug-only event tap does not change delivery). -/
def send_store_event_with_conn (shard : String) (event : StoreEvent) :
    List Action :=
  [Action.notify shard event]

/-- `send_store_event`: obtains a fresh connection to the primary and sends
through it, outside any transaction. -/
def send_store_event (event : StoreEvent) : List Action :=
  send_store_event_with_conn PRIMARY_SHARD event

/-- `create_deployment_internal`: a transaction on the target shard writes
the new deployment, then a transaction on the primary writes the
version-switch changes, extends the event with them, and sends the event
with the transaction connection — inside that transaction. -/
def create_deployment_internal (shard : String)
    (createChanges versionChanges : List EntityChange) : List Action :=
  transaction shard [Action.write shard createChanges] ++
  transaction PRIMARY_SHARD
    ([Action.write PRIMARY_SHARD versionChanges] ++
     send_store_event_with_conn PRIMARY_SHARD
       (StoreEvent.new (createChanges ++ versionChanges)))

/-- `create_subgraph_deployment`: forwards to `create_deployment_internal`
with the shard fixed to `PRIMARY_SHARD`. -/
def create_subgraph_deployment
    (createChanges versionChanges : List EntityChange) : List Action :=
  create_deployment_internal PRIMARY_SHARD createChanges versionChanges

/-- `deployment_synced`: a primary transaction produces the promotion
changes, a data-shard transaction sets `synced` (no entity changes), and
only afterwards is the event sent, on a fresh connection. -/
def deployment_synced (dataShard : String)
    (promoteChanges : List EntityChange) : List Action :=
  transaction PRIMARY_SHARD [Action.write PRIMARY_SHARD promoteChanges] ++
  transaction dataShard [Action.write dataShard []] ++
  send_store_event (StoreEvent.new promoteChanges)

/-- `remove_subgraph`: a primary transaction produces the changes; the event
is sent afterwards on a fresh connection. -/
def remove_subgraph (changes : List EntityChange) : List Action :=
  transaction PRIMARY_SHARD [Action.write PRIMARY_SHARD changes] ++
  send_store_event (StoreEvent.new changes)

/-- `reassign_subgraph`: a primary transaction produces the assignment
changes; the event is sent afterwards on a fresh connection. -/
def reassign_subgraph (changes : List EntityChange) : List Action :=
  transaction PRIMARY_SHARD [Action.write PRIMARY_SHARD changes] ++
  send_store_event (StoreEvent.new changes)

def notifiesInsideTxAux (openShards : List String) : List Action → Bool
  | [] => true
  | Action.txBegin s :: rest => notifiesInsideTxAux (s :: openShards) rest
  | Action.txCommit s :: rest => notifiesInsideTxAux (openShards.erase s) rest
  | Action.write _ _ :: rest => notifiesInsideTxAux openShards rest
  | Action.notify s _ :: rest =>
    openShards.contains s && notifiesInsideTxAux openShards rest

/-- Every notification in the trace is sent while a transaction is open on
the notification's shard. -/
def notifiesInsideTx (tr : List Action) : Bool :=
  notifiesInsideTxAux [] tr

def notifiesOutsideAnyTxAux (openShards : List String) : List Action → Bool
  | [] => true
  | Action.txBegin s :: rest => notifiesOutsideAnyTxAux (s :: openShards) rest
  | Action.txCommit s :: rest => notifiesOutsideAnyTxAux (openShards.erase s) rest
  | Action.write _ _ :: rest => notifiesOutsideAnyTxAux openShards rest
  | Action.notify _ _ :: rest =>
    openShards.isEmpty && notifiesOutsideAnyTxAux openShards rest

/-- Every notification in the trace is sent while no transaction at all is
open, i.e. strictly after the producing transaction committed. -/
def notifiesOutsideAnyTx (tr : List Action) : Bool :=
  notifiesOutsideAnyTxAux [] tr

/-- A concrete assignment change (test input). -/
def testChange : EntityChange :=
  ⟨("SubgraphDeploymentAssignment"), "Qmdeployment", SUBGRAPHS_ID,
   EntityChangeOperation.set⟩

/-- The in-memory `ShardedStore` value: the primary store handle plus the
map of all store handles, with handles of an arbitrary type. -/
structure ShardedStore (α : Type) where
  primary : α
  stores : List (String × α)

/-- `ShardedStore::new`: `assert_eq!(1, stores.len(), ..)` panics unless the
map has exactly one entry, and `stores.get(PRIMARY_SHARD).expect(..)` panics
unless the primary shard is present. -/
def ShardedStore.new {α : Type} (stores : List (String × α)) :
    RRes (ShardedStore α) :=
  if stores.length = 1 then
    match stores.lookup PRIMARY_SHARD with
    | some primary => RRes.ok ⟨primary, stores⟩
    | none => RRes.panicked ("we always have a primary store")
  else RRes.panicked ("The sharded store can only handle one shard for now")

/-- `status::Filter`. -/
inductive Filter where
  | SubgraphName (name : String)
  | SubgraphVersion (name : String) (use_current : Bool)
  | Deployments (deployments : List String)
  deriving DecidableEq, Repr

/-- Modelled from the spec: the stored state consulted by `status`.  The
primary-side name/version tables (`primary::deployments_for_subgraph` and
`primary::subgraph_version` live in the missing `primary.rs`), the
deployment-to-shard placement (`Store::storage`, missing `store.rs`), and
each shard's deployment status rows (`Store::deployment_statuses`, missing
`store.rs`).  A status row is represented by its deployment id. -/
structure StatusEnv where
  names : List (String × List String)
  versions : List ((String × Bool) × String)
  placement : List (String × String)
  stores : List (String × List String)
  deriving DecidableEq, Repr

/-- Modelled from the spec: `shard(id)` reads the deployment's placement
from primary metadata.  The spec does not make the lookup fail for an
unknown deployment — §4.5 requires unknown ids to be dropped later — so an
unplaced deployment resolves to the primary shard, whose status rows cannot
contain it. -/
def shard_of (env : StatusEnv) (id : String) : String :=
  (env.placement.lookup id).getD PRIMARY_SHARD

/-- Modelled from the spec: `deployment_statuses(ids)` returns the status
rows this shard has for the requested deployments, silently skipping ids
without a row. -/
def deployment_statuses (rows : List String) (ids : List String) : List String :=
  rows.filter (fun r => ids.contains r)

/-- One step of the fold building the by-shard partition:
`map.entry(shard).or_default().push(id)`. -/
def addToShardGroup (m : List (String × List String)) (id shard : String) :
    List (String × List String) :=
  if m.any (fun p => p.1 = shard) then
    m.map (fun p => if p.1 = shard then (p.1, p.2 ++ [id]) else p)
  else m ++ [(shard, [id])]

/-- Partition a list of (deployment, shard) pairs by shard, as the `fold`
into a map in `status` does. -/
def deployments_by_shard (l : List (String × String)) :
    List (String × List String) :=
  l.foldl (fun m p => addToShardGroup m p.1 p.2) []

/-- The `(deployments, empty_means_all)` pair computed from the filter at
the top of `status`. -/
def requested (env : StatusEnv) (filter : Filter) : List String × Bool :=
  match filter with
  | Filter.SubgraphName name => ((env.names.lookup name).getD [], false)
  | Filter.SubgraphVersion name use_current =>
    (((env.versions.lookup (name, use_current)).map (fun d => [d])).getD [],
     false)
  | Filter.Deployments ds => (ds, true)

/-- `status`: resolve the filter to requested deployment ids, drop the
malformed ones (`filter_map(|d| SubgraphDeploymentId::new(d).ok())`), find
each deployment's shard, partition by shard, and collect per-shard statuses;
a shard without a live store handle is an `UnknownShard` error. -/
def status (env : StatusEnv) (filter : Filter) :
    Except StoreError (List String) :=
  let pair := requested env filter
  if pair.1.isEmpty ∧ pair.2 = false then Except.ok []
  else
    let deployments := pair.1.filter (fun d => isValidDeploymentId d)
    let withShard := deployments.map (fun id => (id, shard_of env id))
    let byShard := deployments_by_shard withShard
    byShard.foldlM
      (fun infos p =>
        match env.stores.lookup p.1 with
        | none => Except.error (StoreError.unknownShard p.1)
        | some rows => Except.ok (infos ++ deployment_statuses rows p.2)) []

/-- Membership of deployment `x` in the group of shard `s`. -/
def memGroup (m : List (String × List String)) (x s : String) : Prop :=
  ∃ ids, (s, ids) ∈ m ∧ x ∈ ids

/-- A concrete status environment: one placed deployment in the primary. -/
def testStatusEnv : StatusEnv :=
  { names := []
    versions := []
    placement := [("Qmgood", "primary")]
    stores := [("primary", ["Qmgood"])] }

theorem totalReverts_append (l₁ l₂ : List PtrOp) :
    totalReverts (l₁ ++ l₂) = totalReverts l₁ + totalReverts l₂ := by
  simp [totalReverts, List.countP_append]

theorem trailingReverts_snoc (ops : List PtrOp) (op : PtrOp) :
    trailingReverts (ops ++ [op]) =
      if isRevert op then trailingReverts ops + 1 else 0 := by
  simp only [trailingReverts, List.reverse_append, List.reverse_singleton,
    List.singleton_append, List.takeWhile]
  cases h : isRevert op <;> simp [h]

theorem foldr_max_general (b : Nat) (l : List Nat) :
    l.foldr max b = max (l.foldr max 0) b := by
  induction l with
  | nil => simp
  | cons x l ih => simp [List.foldr_cons, ih, Nat.max_assoc]

theorem maxDepthReached_snoc (ops : List PtrOp) (op : PtrOp) :
    maxDepthReached (ops ++ [op]) =
      max (maxDepthReached ops) (trailingReverts (ops ++ [op])) := by
  have h : (ops ++ [op]).inits = ops.inits ++ [ops ++ [op]] := by
    simp [List.inits_append]
  rw [maxDepthReached, h, List.map_append, List.foldr_append]
  simp only [List.map_cons, List.map_nil, List.foldr_cons, List.foldr_nil]
  rw [foldr_max_general]
  simp [maxDepthReached]

theorem runPtrOps_snoc (d : DeploymentRow) (ops : List PtrOp) (op : PtrOp) :
    runPtrOps d (ops ++ [op]) = applyPtrOp (runPtrOps d ops) op := by
  simp [runPtrOps, List.foldl_append]

/-- C2. For every deployment row in freshly created state (all three reorg
counters zero) and every finite sequence of `forward_block_ptr` (advance) and
`revert_block_ptr` (revert) calls: afterwards `reorg_count` is the total
number of reverts, `current_reorg_depth` is the number of trailing reverts
since the most recent advance, and `max_reorg_depth` is the maximum value
`current_reorg_depth` ever reached (over all prefixes of the sequence). -/
theorem reorg_counters_track_revert_sequences (d : DeploymentRow) (ops : List PtrOp)
    (hc : d.reorg_count = 0) (hd : d.current_reorg_depth = 0)
    (hm : d.max_reorg_depth = 0) :
    (runPtrOps d ops).reorg_count = (totalReverts ops : Int) ∧
    (runPtrOps d ops).current_reorg_depth = (trailingReverts ops : Int) ∧
    (runPtrOps d ops).max_reorg_depth = (maxDepthReached ops : Int) := by
  induction ops using List.reverseRecOn with
  | nil =>
    simp [runPtrOps, totalReverts, trailingReverts, maxDepthReached, hc, hd, hm]
  | append_singleton l a ih =>
    obtain ⟨ih1, ih2, ih3⟩ := ih
    rw [runPtrOps_snoc, totalReverts_append, maxDepthReached_snoc, trailingReverts_snoc]
    cases a with
    | advance ptr =>
      simp [applyPtrOp, forward_block_ptr, isRevert, totalReverts, ih1, ih2, ih3]
    | revert ptr =>
      refine ⟨?_, ?_, ?_⟩
      · simp [applyPtrOp, revert_block_ptr, isRevert, totalReverts, ih1]
      · simp [applyPtrOp, revert_block_ptr, isRevert, ih2]
      · simp [applyPtrOp, revert_block_ptr, isRevert, ih2, ih3]
        push_cast
        rw [max_comm]

/-- Closed instance of C2: a concrete run advance, revert, revert, advance,
revert from a fresh row, checking count 3, trailing depth 1, max depth 2. -/
theorem reorg_counters_track_revert_sequences_witness :
    (GraphNode.freshTestRow.reorg_count = 0 ∧
     GraphNode.freshTestRow.current_reorg_depth = 0 ∧
     GraphNode.freshTestRow.max_reorg_depth = 0) ∧
    ((runPtrOps GraphNode.freshTestRow testPtrOps).reorg_count = (totalReverts testPtrOps : Int) ∧
     (runPtrOps GraphNode.freshTestRow testPtrOps).current_reorg_depth =
       (trailingReverts testPtrOps : Int) ∧
     (runPtrOps GraphNode.freshTestRow testPtrOps).max_reorg_depth =
       (maxDepthReached testPtrOps : Int)) :=
  ⟨⟨rfl, rfl, rfl⟩,
   reorg_counters_track_revert_sequences GraphNode.freshTestRow testPtrOps rfl rfl rfl⟩

/-- C4 counterexample: when the latest block number equals the graft block
number, `graft_pending` still returns the graft point, not `None` — the SQL
filter keeps the row whenever `graft_block_number >= latest`, so the claimed
suppression at `latest = graft.number` does not happen. -/
theorem graft_pending_equal_counterexample :
    graft_pending (some graftEqualRow) ("Qmdeployment") =
      RRes.ok (some (("Qmbase"), ⟨List.replicate 32 7, 5⟩)) ∧
    graft_pending (some graftEqualRow) ("Qmdeployment") ≠ RRes.ok none := by
  constructor
  · decide
  · decide

/-- C4 (amended). For a row whose graft columns are all set, with a valid
base id, a 32-byte hash and a `u64`-range block number: `graft_pending`
returns `None` exactly when the latest block number is strictly greater than
the graft block number; at equality, below it, or with no latest block it
returns the graft point. -/
theorem graft_pending_suppression (r : DeploymentRow) (id b : String)
    (h : List Nat) (n : Int)
    (hmeta : is_meta id = false)
    (hb : r.graft_base = some b) (hv : isValidDeploymentId b = true)
    (hh : r.graft_block_hash = some h) (hlen : h.length = 32)
    (hn : r.graft_block_number = some n) (hn0 : 0 ≤ n) (hn64 : n < 2 ^ 64) :
    (∀ l : Int, r.latest_ethereum_block_number = some l → n < l →
        graft_pending (some r) id = RRes.ok none) ∧
    (∀ l : Int, r.latest_ethereum_block_number = some l → l ≤ n →
        graft_pending (some r) id = RRes.ok (some (b, ⟨h, n.toNat⟩))) ∧
    (r.latest_ethereum_block_number = none →
        graft_pending (some r) id = RRes.ok (some (b, ⟨h, n.toNat⟩))) := by
  refine ⟨?_, ?_, ?_⟩
  · intro l hl hlt
    simp [graft_pending, graft, hmeta, hb, hh, hn, hl, not_le.mpr hlt]
  · intro l hl hle
    have hn64b : n < (18446744073709551616 : Int) := by omega
    simp [graft_pending, graft, hmeta, hb, hh, hn, hl, hle, H256_from_slice, hlen,
      RRes.bind, bigdecimal_to_u64, hn0, hn64b, hv]
  · intro hl
    have hn64b : n < (18446744073709551616 : Int) := by omega
    simp [graft_pending, graft, hmeta, hb, hh, hn, hl, hn0, H256_from_slice, hlen,
      RRes.bind, bigdecimal_to_u64, hn64b, hv]

/-- Closed instance of C4: a row with latest block 7 and graft block 5 has
its pending graft suppressed. -/
theorem graft_pending_suppression_witness :
    graft_pending (some graftPastRow) ("Qmdeployment") = RRes.ok none :=
  (graft_pending_suppression graftPastRow ("Qmdeployment") ("Qmbase")
      (List.replicate 32 7) 5 rfl rfl (by decide) rfl (by decide) rfl
      (by decide) (by decide)).1 7 rfl (by decide)

/-- C5 counterexample: a stored graft row with only the base id set makes
`graft_point` hit `unreachable!` — a panic, not a returned validation
error. -/
theorem graft_half_tuple_panics :
    graft_point (some halfGraftRow) ("Qmdeployment") =
      RRes.panicked graft_unreachable_msg ∧
    ∀ e : StoreError,
      graft_point (some halfGraftRow) ("Qmdeployment") ≠ RRes.err e := by
  have h1 : graft_point (some halfGraftRow) ("Qmdeployment") =
      RRes.panicked graft_unreachable_msg := by decide
  refine ⟨h1, ?_⟩
  intro e he
  rw [h1] at he
  exact RRes.noConfusion he

/-- C5 (amended). A malformed base id in a fully set graft triple yields a
returned error (`StoreError::Unknown`); a partially set triple is not
reported as an error: `graft_point` panics on it via `unreachable!`, while
`graft_pending` with the block number absent returns `Ok(None)` because the
SQL filter drops the row. -/
theorem graft_malformed_base_and_half_tuple (r : DeploymentRow) (id b : String)
    (hash : List Nat) (n : Int) (hmeta : is_meta id = false) :
    (r.graft_base = some b → isValidDeploymentId b = false →
      r.graft_block_hash = some hash → hash.length = 32 →
      r.graft_block_number = some n → 0 ≤ n → n < 2 ^ 64 →
      graft_point (some r) id =
        RRes.err (StoreError.unknown (invalid_base_id_msg b))) ∧
    (r.graft_base = some b → r.graft_block_hash = none →
      r.graft_block_number = none →
      graft_point (some r) id = RRes.panicked graft_unreachable_msg) ∧
    (r.graft_base = some b → r.graft_block_number = none →
      graft_pending (some r) id = RRes.ok none) := by
  refine ⟨?_, ?_, ?_⟩
  · intro hb hv hh hlen hn hn0 hn64
    have hn64b : n < (18446744073709551616 : Int) := by omega
    simp [graft_point, graft, hmeta, hb, hh, hn, H256_from_slice, hlen,
      RRes.bind, bigdecimal_to_u64, hn0, hn64b, hv]
  · intro hb hh hn
    simp [graft_point, graft, hmeta, hb, hh, hn]
  · intro hb hn
    simp [graft_pending, graft, hmeta, hb, hn]

/-- Closed instance of the amended C5: a full triple with malformed base id
`Qm/base` produces a returned `StoreError::Unknown`, and the half row makes
`graft_point` panic. -/
theorem graft_malformed_base_and_half_tuple_witness :
    graft_point (some badBaseRow) ("Qmdeployment") =
      RRes.err (StoreError.unknown (invalid_base_id_msg ("Qm/base"))) ∧
    graft_point (some halfGraftRow) ("Qmdeployment") =
      RRes.panicked graft_unreachable_msg :=
  ⟨(graft_malformed_base_and_half_tuple badBaseRow ("Qmdeployment") ("Qm/base")
      (List.replicate 32 7) 5 rfl).1 rfl (by decide) rfl (by decide) rfl
      (by decide) (by decide),
   (graft_malformed_base_and_half_tuple halfGraftRow ("Qmdeployment") ("Qmbase")
      [] 0 rfl).2.1 rfl rfl rfl⟩

/-- C6. `state` distinguishes a missing deployment row from a row that has
never recorded a block (both are `QueryExecutionError`s but with provably
different messages); the narrowing conversions for `reorg_count`,
`max_reorg_depth` and the latest block number fail with a
`ConstraintViolation` — a returned error, never a panic — on a negative
value, an out-of-`i32`-range value, or a missing required value, and an
accepted row is projected with all three values unchanged. -/
theorem state_error_conditions (id : String) (r : DeploymentRow) :
    (state none id = Except.error (StoreError.queryExecutionError (no_data_msg id))) ∧
    (0 ≤ r.reorg_count → 0 ≤ r.max_reorg_depth →
      r.latest_ethereum_block_number = none →
      state (some r) id =
        Except.error (StoreError.queryExecutionError (not_started_msg id))) ∧
    (not_started_msg id ≠ no_data_msg id) ∧
    (r.reorg_count < 0 →
      state (some r) id = Except.error (StoreError.constraintViolation
        (invalid_value_msg r.reorg_count ("reorg_count") id))) ∧
    (0 ≤ r.reorg_count → r.max_reorg_depth < 0 →
      state (some r) id = Except.error (StoreError.constraintViolation
        (invalid_value_msg r.max_reorg_depth ("max_reorg_depth") id))) ∧
    (∀ l : Int, r.latest_ethereum_block_number = some l →
      (l < -(2 ^ 31) ∨ 2 ^ 31 ≤ l) → 0 ≤ r.reorg_count → 0 ≤ r.max_reorg_depth →
      state (some r) id = Except.error (StoreError.constraintViolation
        (invalid_latest_msg l id))) ∧
    (∀ f : String, convert_to_u32 none f id =
      Except.error (StoreError.constraintViolation (missing_field_msg f id))) ∧
    (∀ l : Int, r.latest_ethereum_block_number = some l →
      0 ≤ r.reorg_count → 0 ≤ r.max_reorg_depth → -(2 ^ 31) ≤ l → l < 2 ^ 31 →
      state (some r) id = Except.ok ⟨id, r.reorg_count, r.max_reorg_depth, l⟩) := by
  refine ⟨rfl, ?_, ?_, ?_, ?_, ?_, ?_, ?_⟩
  · intro h1 h2 h3
    simp only [state, convert_to_u32, latest_as_block_number, h1, h2, h3, if_pos]
    rfl
  · intro h
    have hlen := congrArg String.length h
    have c1 : ("Subgraph `").length = 10 := rfl
    have c2 : ("` has not started syncing yet. Wait for it to ingest a few blocks before querying it").length = 84 := rfl
    have c3 : ("No data found for subgraph ").length = 27 := rfl
    simp [not_started_msg, no_data_msg, String.length_append, c1, c2, c3] at hlen
    omega
  · intro h1
    simp only [state, convert_to_u32, if_neg (not_le.mpr h1)]
    rfl
  · intro h1 h2
    simp only [state, convert_to_u32, if_pos h1, if_neg (not_le.mpr h2)]
    rfl
  · intro l hl hrange h1 h2
    have hc : ¬(-(2 ^ 31) ≤ l ∧ l < 2 ^ 31) := by omega
    simp only [state, convert_to_u32, latest_as_block_number, h1, h2, hl, if_pos,
      if_neg hc]
    rfl
  · intro f
    simp [convert_to_u32]
  · intro l hl h1 h2 h3 h4
    have hc : -(2 ^ 31) ≤ l ∧ l < 2 ^ 31 := ⟨h3, h4⟩
    simp only [state, convert_to_u32, latest_as_block_number, h1, h2, hl, if_pos,
      if_pos hc]
    rfl

/-- Closed instance of C6: a row with counters 0 and no latest block yields
the not-yet-syncing error, distinct from the no-data error. -/
theorem state_error_conditions_witness :
    state (some freshTestRow) ("Qmdeployment") =
      Except.error (StoreError.queryExecutionError (not_started_msg ("Qmdeployment"))) ∧
    not_started_msg ("Qmdeployment") ≠ no_data_msg ("Qmdeployment") :=
  ⟨(state_error_conditions ("Qmdeployment") freshTestRow).2.1 (by decide)
      (by decide) rfl,
   (state_error_conditions ("Qmdeployment") freshTestRow).2.2.1⟩

/-- C8. `set_synced` only flips `synced` from false to true and is
idempotent: one call on any existing row yields the row with `synced = true`
and success, and a second call returns the same row unchanged, again with
success rather than an error. -/
theorem set_synced_idempotent (r : DeploymentRow) :
    set_synced (some r) = (some { r with synced := true }, Except.ok ()) ∧
    set_synced (some { r with synced := true }) =
      (some { r with synced := true }, Except.ok ()) := by
  constructor
  · cases hr : r.synced
    · simp [set_synced, hr]
    · cases r
      simp_all [set_synced]
  · simp [set_synced]

/-- C9. `exists_and_synced` returns `Ok(false)` for a missing deployment row
rather than a not-found error, which is exactly its result for an existing
unsynced row: the predicate used during deployment creation treats a missing
deployment like an unsynced one. -/
theorem exists_and_synced_missing_is_unsynced (r : DeploymentRow) :
    exists_and_synced none = Except.ok false ∧
    exists_and_synced (some { r with synced := false }) =
      exists_and_synced none := by
  simp [exists_and_synced]

theorem op_in_shard_iff (op : MetadataOperation) (id : String) :
    MetadataOperation.in_shard op id = true ↔
      (op.entity ≠ MetadataType.Subgraph ∧
       op.entity ≠ MetadataType.SubgraphDeploymentAssignment) := by
  cases op <;> rename_i e i <;> cases e <;>
    simp [MetadataOperation.in_shard, MetadataOperation.entity,
      MetadataType.in_shard]

/-- C3 counterexample: a batch with one primary-only type (`Subgraph`) and
one co-located type keyed to the target deployment FAILS the single-shard
assertion, while a batch with a co-located type keyed to a different
deployment PASSES it — the opposite of the claim in both halves. -/
theorem metadata_shard_validation_counterexample :
    apply_metadata_operations_assertion ("Qmtarget") mixedBatch = false ∧
    apply_metadata_operations_assertion ("Qmtarget") foreignBatch = true := by
  decide

/-- C3 (amended). The `in_shard` assertion of `apply_metadata_operations`
looks only at entity types and ignores entity ids and the target deployment
id entirely: a batch passes the validation exactly when every operation's
entity type is co-located with deployment data, i.e. is neither `Subgraph`
nor `SubgraphDeploymentAssignment`; any primary-only operation makes the
assertion fire, and a co-located operation keyed to a different deployment
id passes. -/
theorem metadata_shard_validation_ignores_ids (target : String)
    (ops : List MetadataOperation) :
    apply_metadata_operations_assertion target ops = true ↔
      ∀ op ∈ ops, op.entity ≠ MetadataType.Subgraph ∧
        op.entity ≠ MetadataType.SubgraphDeploymentAssignment := by
  simp [apply_metadata_operations_assertion, list_in_shard, List.all_eq_true,
    op_in_shard_iff]

/-- C1 counterexample: `reassign_subgraph` sends its store event on a fresh
connection strictly after the transaction that produced the assignment
changes has committed — not inside that transaction. -/
theorem reassign_notification_outside_tx_counterexample :
    notifiesInsideTx (reassign_subgraph [testChange]) = false ∧
    notifiesOutsideAnyTx (reassign_subgraph [testChange]) = true := by
  decide

/-- C1 (amended). Only deployment creation delivers its event inside a
transaction (the primary transaction that produced the version-switch
changes); `deployment_synced`, `remove_subgraph` and `reassign_subgraph`
each deliver their event on a separate connection strictly after every
transaction of the operation has committed. -/
theorem store_event_delivery_placement (dshard : String)
    (c v p : List EntityChange) :
    notifiesInsideTx (create_deployment_internal dshard c v) = true ∧
    notifiesInsideTx (create_subgraph_deployment c v) = true ∧
    notifiesOutsideAnyTx (deployment_synced dshard p) = true ∧
    notifiesInsideTx (deployment_synced dshard p) = false ∧
    notifiesOutsideAnyTx (remove_subgraph p) = true ∧
    notifiesInsideTx (remove_subgraph p) = false ∧
    notifiesOutsideAnyTx (reassign_subgraph p) = true ∧
    notifiesInsideTx (reassign_subgraph p) = false := by
  refine ⟨?_, ?_, ?_, ?_, ?_, ?_, ?_, ?_⟩ <;>
    simp [create_deployment_internal, create_subgraph_deployment,
      deployment_synced, remove_subgraph, reassign_subgraph, transaction,
      send_store_event, send_store_event_with_conn, notifiesInsideTx,
      notifiesOutsideAnyTx, notifiesInsideTxAux, notifiesOutsideAnyTxAux,
      PRIMARY_SHARD, List.erase_cons_head]

/-- C10. The sharded store only operates with the single primary shard: the
constructor returns a store, rather than panicking, exactly for a one-entry
shard map that contains the primary (and never returns a recoverable
error), and `create_subgraph_deployment` forwards to the internal creation
with the shard fixed to the primary, so every action of deployment creation
targets the primary shard. -/
theorem sharded_store_single_primary_shard {α : Type}
    (stores : List (String × α)) (c v : List EntityChange) :
    ((∃ s, ShardedStore.new stores = RRes.ok s) ↔
      stores.length = 1 ∧ (stores.lookup PRIMARY_SHARD).isSome = true) ∧
    (∀ e, ShardedStore.new stores ≠ RRes.err e) ∧
    (∀ s, ShardedStore.new stores = RRes.ok s →
      s.stores = stores ∧ stores.lookup PRIMARY_SHARD = some s.primary) ∧
    (create_subgraph_deployment c v =
      create_deployment_internal PRIMARY_SHARD c v) ∧
    (∀ a ∈ create_subgraph_deployment c v, a.shard = PRIMARY_SHARD) := by
  have hacts : ∀ a ∈ create_subgraph_deployment c v, a.shard = PRIMARY_SHARD := by
    intro a ha
    simp only [create_subgraph_deployment, create_deployment_internal,
      transaction, send_store_event_with_conn, List.cons_append,
      List.nil_append, List.mem_cons, List.mem_singleton,
      List.mem_append, List.mem_nil_iff, or_false] at ha
    rcases ha with h | h | h | h | h | h | h <;> simp [h, Action.shard]
  by_cases hlen : stores.length = 1
  · cases hlk : stores.lookup PRIMARY_SHARD with
    | some prim =>
      refine ⟨?_, ?_, ?_, rfl, hacts⟩
      · simp [ShardedStore.new, hlen, hlk]
      · intro e he
        simp [ShardedStore.new, hlen, hlk] at he
      · intro s hs
        simp [ShardedStore.new, hlen, hlk] at hs
        rcases hs with rfl
        refine ⟨rfl, ?_⟩
        simp [hlk]
    | none =>
      refine ⟨?_, ?_, ?_, rfl, hacts⟩
      · simp [ShardedStore.new, hlen, hlk]
      · intro e he
        simp [ShardedStore.new, hlen, hlk] at he
      · intro s hs
        simp [ShardedStore.new, hlen, hlk] at hs
  · refine ⟨?_, ?_, ?_, rfl, hacts⟩
    · simp [ShardedStore.new, hlen]
    · intro e he
      simp [ShardedStore.new, hlen] at he
    · intro s hs
      simp [ShardedStore.new, hlen] at hs

/-- Closed instance of C10: the constructor accepts the one-entry map with
the primary shard. -/
theorem sharded_store_single_primary_shard_witness :
    ∃ s, ShardedStore.new [(PRIMARY_SHARD, (0 : Nat))] = RRes.ok s :=
  (sharded_store_single_primary_shard [(PRIMARY_SHARD, (0 : Nat))] [] []).1.mpr
    (by decide)

theorem lookup_mem {β : Type} (l : List (String × β)) (k : String) (v : β)
    (h : l.lookup k = some v) : (k, v) ∈ l := by
  induction l with
  | nil => simp [List.lookup] at h
  | cons p t ih =>
    rcases p with ⟨k1, v1⟩
    rw [List.lookup_cons] at h
    by_cases hk : k = k1
    · subst hk
      simp at h
      subst h
      exact List.mem_cons_self _ _
    · have hbeq : (k == k1) = false := beq_false_of_ne hk
      rw [hbeq] at h
      exact List.mem_cons_of_mem _ (ih h)

theorem mem_addToShardGroup (m : List (String × List String))
    (id shard x s : String) :
    memGroup (addToShardGroup m id shard) x s ↔
      (memGroup m x s ∨ (x = id ∧ s = shard)) := by
  unfold memGroup addToShardGroup
  by_cases hany : (m.any (fun p => p.1 = shard)) = true
  · rw [if_pos hany]
    constructor
    · rintro ⟨ids, hmem, hx⟩
      rcases List.mem_map.mp hmem with ⟨⟨ps, pids⟩, hpmem, hfp⟩
      by_cases hps : ps = shard
      · rw [if_pos hps] at hfp
        have hs : ps = s := congrArg Prod.fst hfp
        have hids : pids ++ [id] = ids := congrArg Prod.snd hfp
        rcases List.mem_append.mp (hids ▸ hx) with hx2 | hx2
        · exact Or.inl ⟨pids, hs ▸ hpmem, hx2⟩
        · have hxid : x = id := by simpa using hx2
          exact Or.inr ⟨hxid, by rw [← hs, hps]⟩
      · rw [if_neg hps] at hfp
        exact Or.inl ⟨ids, hfp ▸ hpmem, hx⟩
    · rintro (⟨ids, hmem, hx⟩ | ⟨hxid, hsshard⟩)
      · by_cases hs : s = shard
        · refine ⟨ids ++ [id], ?_, List.mem_append_left _ hx⟩
          refine List.mem_map.mpr ⟨(s, ids), hmem, ?_⟩
          simp [hs]
        · refine ⟨ids, ?_, hx⟩
          refine List.mem_map.mpr ⟨(s, ids), hmem, ?_⟩
          simp [hs]
      · rcases List.any_eq_true.mp hany with ⟨⟨ps, pids⟩, hpmem, hps⟩
        have hps2 : ps = shard := by simpa using hps
        refine ⟨pids ++ [id], ?_, List.mem_append_right _ (by simp [hxid])⟩
        refine List.mem_map.mpr ⟨(ps, pids), hpmem, ?_⟩
        simp [hps2, hsshard]
  · rw [if_neg hany]
    constructor
    · rintro ⟨ids, hmem, hx⟩
      rcases List.mem_append.mp hmem with hm | hone
      · exact Or.inl ⟨ids, hm, hx⟩
      · have hpair : s = shard ∧ ids = [id] := by
          simpa [Prod.ext_iff] using hone
        rcases hpair with ⟨hs, hids⟩
        subst hids
        exact Or.inr ⟨by simpa using hx, hs⟩
    · rintro (⟨ids, hmem, hx⟩ | ⟨hxid, hs⟩)
      · exact ⟨ids, List.mem_append_left _ hmem, hx⟩
      · exact ⟨[id], List.mem_append_right _ (by simp [hs]), by simp [hxid]⟩

theorem memGroup_deployments_by_shard (l : List (String × String))
    (m : List (String × List String)) (x s : String) :
    memGroup (l.foldl (fun m p => addToShardGroup m p.1 p.2) m) x s ↔
      (memGroup m x s ∨ (x, s) ∈ l) := by
  induction l generalizing m with
  | nil => simp
  | cons p t ih =>
    rw [List.foldl_cons, ih, mem_addToShardGroup]
    simp [Prod.ext_iff]
    tauto

theorem keys_addToShardGroup (m : List (String × List String))
    (id shard s : String) (ids : List String)
    (h : (s, ids) ∈ addToShardGroup m id shard) :
    (∃ ids0, (s, ids0) ∈ m) ∨ s = shard := by
  unfold addToShardGroup at h
  by_cases hany : (m.any (fun p => p.1 = shard)) = true
  · rw [if_pos hany] at h
    rcases List.mem_map.mp h with ⟨⟨ps, pids⟩, hpmem, hfp⟩
    by_cases hps : ps = shard
    · rw [if_pos hps] at hfp
      have hs : ps = s := congrArg Prod.fst hfp
      refine Or.inl ⟨pids, ?_⟩
      rw [← hs]
      exact hpmem
    · rw [if_neg hps] at hfp
      have hs : ps = s := congrArg Prod.fst hfp
      refine Or.inl ⟨pids, ?_⟩
      rw [← hs]
      exact hpmem
  · rw [if_neg hany] at h
    rcases List.mem_append.mp h with hm | hone
    · exact Or.inl ⟨ids, hm⟩
    · have hpair : s = shard ∧ ids = [id] := by
        simpa [Prod.ext_iff] using hone
      exact Or.inr hpair.1

theorem keys_deployments_by_shard (l : List (String × String))
    (m : List (String × List String)) (s : String) (ids : List String)
    (h : (s, ids) ∈ l.foldl (fun m p => addToShardGroup m p.1 p.2) m) :
    (∃ ids0, (s, ids0) ∈ m) ∨ ∃ x, (x, s) ∈ l := by
  induction l generalizing m with
  | nil => exact Or.inl ⟨ids, h⟩
  | cons p t ih =>
    rw [List.foldl_cons] at h
    rcases ih (addToShardGroup m p.1 p.2) h with ⟨ids0, h0⟩ | ⟨x, hx⟩
    · rcases keys_addToShardGroup m p.1 p.2 s ids0 h0 with h1 | h1
      · exact Or.inl h1
      · refine Or.inr ⟨p.1, ?_⟩
        rw [h1]
        exact List.mem_cons_self _ _
    · exact Or.inr ⟨x, List.mem_cons_of_mem _ hx⟩

theorem status_foldlM_ok (env : StatusEnv)
    (byShard : List (String × List String)) (acc : List String)
    (hk : ∀ p ∈ byShard, (env.stores.lookup p.1).isSome = true) :
    ∃ out, (byShard.foldlM
        (fun infos p =>
          match env.stores.lookup p.1 with
          | none => Except.error (StoreError.unknownShard p.1)
          | some rows => Except.ok (infos ++ deployment_statuses rows p.2)) acc
      = Except.ok out) ∧
      ∀ x, x ∈ out ↔ (x ∈ acc ∨ ∃ p ∈ byShard,
        x ∈ (env.stores.lookup p.1).getD [] ∧ x ∈ p.2) := by
  induction byShard generalizing acc with
  | nil => exact ⟨acc, rfl, by simp⟩
  | cons p t ih =>
    obtain ⟨rows, hrows⟩ :=
      Option.isSome_iff_exists.mp (hk p (List.mem_cons_self _ _))
    have hkt : ∀ q ∈ t, (env.stores.lookup q.1).isSome = true :=
      fun q hq => hk q (List.mem_cons_of_mem _ hq)
    obtain ⟨out, hout, hmem⟩ := ih (acc ++ deployment_statuses rows p.2) hkt
    refine ⟨out, ?_, ?_⟩
    · rw [List.foldlM_cons, hrows]
      exact hout
    · intro x
      rw [hmem x]
      simp only [List.mem_append, List.mem_cons, deployment_statuses,
        List.mem_filter, List.elem_iff]
      constructor
      · rintro ((hx | ⟨hx1, hx2⟩) | ⟨q, hq, hq1, hq2⟩)
        · exact Or.inl hx
        · refine Or.inr ⟨p, Or.inl rfl, ?_, hx2⟩
          rw [hrows]
          simpa using hx1
        · exact Or.inr ⟨q, Or.inr hq, hq1, hq2⟩
      · rintro (hx | ⟨q, hq | hq, hq1, hq2⟩)
        · exact Or.inl (Or.inl hx)
        · subst hq
          rw [hrows] at hq1
          exact Or.inl (Or.inr ⟨by simpa using hq1, hq2⟩)
        · exact Or.inr ⟨q, hq, hq1, hq2⟩

/-- C7. `status` never fails the whole request because of one bad requested
deployment id: malformed ids are dropped by the `filter_map`, and an
unknown id resolves to a shard whose status rows do not contain it, so it
contributes nothing.  As long as every placed shard and the primary have
live store handles, `status` returns `Ok`, and the returned statuses are
exactly those of the requested ids that are well-formed and present in
their shard. -/
theorem status_tolerates_bad_ids (env : StatusEnv) (filter : Filter)
    (hp : ∀ p ∈ env.placement, (env.stores.lookup p.2).isSome = true)
    (hpr : (env.stores.lookup PRIMARY_SHARD).isSome = true) :
    ∃ l, status env filter = Except.ok l ∧
      ∀ x, x ∈ l ↔
        (x ∈ (requested env filter).1 ∧ isValidDeploymentId x = true ∧
         x ∈ (env.stores.lookup (shard_of env x)).getD []) := by
  have hshard : ∀ x : String,
      (env.stores.lookup (shard_of env x)).isSome = true := by
    intro x
    unfold shard_of
    cases hlk : env.placement.lookup x with
    | none => simpa using hpr
    | some sh => simpa using hp (x, sh) (lookup_mem _ _ _ hlk)
  by_cases hempty :
      (requested env filter).1.isEmpty = true ∧ (requested env filter).2 = false
  · refine ⟨[], ?_, ?_⟩
    · simp only [status]
      rw [if_pos hempty]
    · intro x
      have h1 : (requested env filter).1 = [] := by
        simpa using hempty.1
      simp [h1]
  · have hkeys : ∀ p ∈ deployments_by_shard
        (((requested env filter).1.filter (fun d => isValidDeploymentId d)).map
          (fun id => (id, shard_of env id))),
        (env.stores.lookup p.1).isSome = true := by
      rintro ⟨s, ids⟩ hpmem
      rcases keys_deployments_by_shard _ [] s ids hpmem with ⟨ids0, h0⟩ | ⟨x, hx⟩
      · simp at h0
      · rcases List.mem_map.mp hx with ⟨d, hd, hdeq⟩
        have hs : shard_of env d = s := congrArg Prod.snd hdeq
        simpa [← hs] using hshard d
    obtain ⟨out, hout, hmem⟩ := status_foldlM_ok env _ [] hkeys
    refine ⟨out, ?_, ?_⟩
    · simp only [status]
      rw [if_neg hempty]
      exact hout
    · intro x
      rw [hmem x]
      simp only [List.mem_nil_iff, false_or]
      constructor
      · rintro ⟨⟨s, ids⟩, hpmem, hrow, hxin⟩
        have hmg := (memGroup_deployments_by_shard _ [] x s).mp ⟨ids, hpmem, hxin⟩
        rcases hmg with h0 | hxs
        · simp [memGroup] at h0
        · rcases List.mem_map.mp hxs with ⟨d, hd, hdeq⟩
          have hdx : d = x := congrArg Prod.fst hdeq
          have hdis : shard_of env d = s := congrArg Prod.snd hdeq
          subst hdx
          rcases List.mem_filter.mp hd with ⟨hreq, hvalid⟩
          refine ⟨hreq, hvalid, ?_⟩
          rw [hdis]
          exact hrow
      · rintro ⟨hreq, hvalid, hrow⟩
        have hxs : (x, shard_of env x) ∈
            ((requested env filter).1.filter (fun d => isValidDeploymentId d)).map
              (fun id => (id, shard_of env id)) :=
          List.mem_map.mpr ⟨x, List.mem_filter.mpr ⟨hreq, hvalid⟩, rfl⟩
        have hmg := (memGroup_deployments_by_shard _ [] x (shard_of env x)).mpr
          (Or.inr hxs)
        rcases hmg with ⟨ids, hpmem, hxin⟩
        exact ⟨(shard_of env x, ids), hpmem, hrow, hxin⟩

/-- Closed instance of C7: requesting a good id together with a malformed
one and an unknown one still succeeds, returning the good id's status. -/
theorem status_tolerates_bad_ids_witness :
    ∃ l, status testStatusEnv
        (Filter.Deployments [("Qmgood"), ("bad!"), ("Qmunknown")]) =
        Except.ok l ∧
      ∀ x, x ∈ l ↔
        (x ∈ (requested testStatusEnv
            (Filter.Deployments [("Qmgood"), ("bad!"), ("Qmunknown")])).1 ∧
         isValidDeploymentId x = true ∧
         x ∈ (testStatusEnv.stores.lookup (shard_of testStatusEnv x)).getD []) :=
  status_tolerates_bad_ids testStatusEnv _ (by decide) (by decide)

end GraphNode
